import Mathlib

/-!
# play_with_tflite: `ImageProcessor` (yolov5 + tracking) and `ClassificationEngine`

A shallow embedding of

* `pj_tflite_det_yolov5_tracking/image_processor/image_processor.cpp`
  (`ImageProcessor::Initialize`, `Finalize`, `Command`, `Process`), and
* `pj_tflite_arprobe/image_processor/classification_engine.cpp`
  (`ClassificationEngine::Process`, `ClassificationEngine::ReadLabel`),

followed by the properties proved about them.

Conventions.

* `int32_t` values are integers (`Int`); every `+` of the source on `int32_t`
  operands is `add32`, which wraps modulo `2^32` (two's complement).
* `float` / `double` values are elements of a type parameter `F`: the image
  processor only copies them, the classification engine only compares them.
* Code that is not part of the two files (the detection engine, the tracker,
  OpenCV, the inference helper, the file system) is a parameter: a field of
  `ImageProcessor.Deps` or of `ClassificationEngine.Deps`.
* Side effects on the outside world (engine and tracker calls, drawing calls,
  error prints) are recorded, in program order, in a list of `Event`s that each
  operation returns next to its result.
* A read outside a container (`v[i]` with `i ≥ v.size()`) and a loop that runs out
  of fuel both make the embedded function return `none`.
-/

set_option autoImplicit false

namespace PlayWithTflite

/-! ## Machine integers -/

/-- The `int32_t` value congruent to `n` modulo `2^32`. -/
def wrap32 (n : Int) : Int := (n + 2147483648) % 4294967296 - 2147483648

/-- Sum of two `int32_t` values (`a + b` in the source). -/
def add32 (a b : Int) : Int := wrap32 (a + b)

/-- Product of two `int32_t` values (`a * b` in the source). -/
def mul32 (a b : Int) : Int := wrap32 (a * b)

/-- Quotient of two `int32_t` values (`a / b` in the source): C++ truncates towards zero. -/
def div32 (a b : Int) : Int := wrap32 (Int.tdiv a b)

/-- The integer `n` is the value of some `int32_t`. -/
def InInt32 (n : Int) : Prop := -2147483648 ≤ n ∧ n < 2147483648

instance (n : Int) : Decidable (InInt32 n) := by
  unfold InInt32; exact inferInstance

/-! ## Data model shared by the image processor -/

/-- Modelled from the spec: `bounding_box.h` is not among the sources. The spec (section 3)
gives a bounding box a position, a size, a class id, a label and a score; the field names
`x`, `y`, `w`, `h`, `label` are the ones `ImageProcessor::Process` reads. -/
structure BoundingBox (F : Type) where
  class_id : Int
  label : String
  score : F
  x : Int
  y : Int
  w : Int
  h : Int
deriving DecidableEq, Repr

/-- One entry of a track history, `track_history[i]`: `Process` reads its `bbox` member. -/
structure Data (F : Type) where
  bbox : BoundingBox F
deriving DecidableEq, Repr

/-- The type `cv::Scalar`, restricted to the three channels the source sets. -/
structure Scalar where
  v0 : Int
  v1 : Int
  v2 : Int
deriving DecidableEq, Repr

/-- The type `cv::Point`. -/
structure Point where
  x : Int
  y : Int
deriving DecidableEq, Repr

/-- The type `cv::Rect`. -/
structure Rect where
  x : Int
  y : Int
  width : Int
  height : Int
deriving DecidableEq, Repr

/-- Font faces of OpenCV used by the source. -/
inductive FontFace where
  | FONT_HERSHEY_PLAIN
deriving DecidableEq, Repr

/-- One drawing call on the frame, with the arguments the source passes. -/
inductive DrawOp where
  /-- The call `cv::rectangle(mat, rec, color, thickness)`. -/
  | rectangle (rec : Rect) (color : Scalar) (thickness : Int)
  /-- The call `cv::putText(mat, text, org, fontFace, fontScale, color, thickness)`. -/
  | putText (text : String) (org : Point) (fontFace : FontFace) (fontScale : Int)
      (color : Scalar) (thickness : Int)
  /-- The call `cv::line(mat, pt1, pt2, color)`. -/
  | line (pt1 : Point) (pt2 : Point) (color : Scalar)
deriving DecidableEq, Repr

/-- The type `DetectionEngine::Result`, as far as `ImageProcessor::Process` reads it. -/
structure Result (F : Type) where
  bbox_list : List (BoundingBox F)
  time_pre_process : F
  time_inference : F
  time_post_process : F
deriving DecidableEq, Repr

/-- One entry of `OutputParam::object_list`. -/
structure OutputObject (F : Type) where
  class_id : Int
  label : String
  score : F
  x : Int
  y : Int
  width : Int
  height : Int
deriving DecidableEq, Repr

/-- The type `ImageProcessor::OutputParam`: the fields named in `image_processor.cpp`. -/
structure OutputParam (F : Type) where
  object_num : Int
  object_list : List (OutputObject F)
  time_pre_process : F
  time_inference : F
  time_post_process : F
deriving DecidableEq, Repr

/-- The type `ImageProcessor::InputParam`: the fields `Initialize` reads. -/
structure InputParam where
  work_dir : String
  num_threads : Int
deriving DecidableEq, Repr

/-- An effect of the image processor on the world outside `image_processor.cpp`. -/
inductive Event (F : Type) where
  /-- The macro call `PRINT_E(fmt, args...)`. -/
  | print_e (fmt : String) (args : List Int)
  /-- The expression `new DetectionEngine()`. -/
  | engine_new
  /-- The call `s_engine->Initialize(work_dir, num_threads)`. -/
  | engine_Initialize (work_dir : String) (num_threads : Int)
  /-- The call `s_engine->Finalize()`. -/
  | engine_Finalize
  /-- The call `s_engine.reset()` on a held engine: the engine is destroyed. -/
  | engine_delete
  /-- The call `s_engine->Process(original_mat, result)`. -/
  | engine_Process
  /-- The call `s_tracker.Update(bbox_list)`. -/
  | tracker_Update (bbox_list : List (BoundingBox F))
  /-- The call `s_tracker.GetTrackList()`. -/
  | tracker_GetTrackList
  /-- A drawing call on the frame. -/
  | cv (op : DrawOp)
deriving DecidableEq, Repr

namespace ImageProcessor

/-- Everything `image_processor.cpp` uses and does not define: the detection engine
(`detection_engine.h`), the tracker and its tracks (`tracker.h`), and the frame with OpenCV's
drawing (`draw mat op` is the frame after the drawing call `op`). Objects are values of a
state type and a method returns the new state next to its result. -/
structure Deps (F : Type) where
  DetectionEngine : Type
  Tracker : Type
  Track : Type
  Mat : Type
  /-- The constant `DetectionEngine::kRetOk`. -/
  kRetOk : Int
  /-- A freshly constructed engine, `new DetectionEngine()`. -/
  engine_new : DetectionEngine
  engine_Initialize : DetectionEngine → String → Int → Int × DetectionEngine
  engine_Finalize : DetectionEngine → Int × DetectionEngine
  /-- The method `DetectionEngine::Process(const cv::Mat&, Result&)`: the return value, the
  result object after the call, the engine after the call. The frame is passed `const`. -/
  engine_Process : DetectionEngine → Mat → Int × Result F × DetectionEngine
  Update : Tracker → List (BoundingBox F) → Tracker
  GetTrackList : Tracker → List Track
  cnt_detected_ : Track → Int
  GetLatestBoundingBox : Track → BoundingBox F
  GetTrackHistory : Track → List (Data F)
  draw : Mat → DrawOp → Mat

variable {F : Type}

/-- The two globals of `image_processor.cpp`: `s_engine` (a `unique_ptr`, empty or holding
one engine) and `s_tracker`. -/
structure Globals (D : Deps F) where
  s_engine : Option D.DetectionEngine
  s_tracker : D.Tracker

/-- What a call of `Initialize`, `Finalize` or `Command` leaves behind: the returned
`int32_t`, the globals, and the events of the call in program order. -/
structure Outcome (D : Deps F) where
  ret : Int
  globals : Globals D
  events : List (Event F)

/-- What a call of `Process` leaves behind: as `Outcome`, with the frame `*mat` and
`*output_param` after the call. -/
structure ProcessOutcome (D : Deps F) where
  ret : Int
  globals : Globals D
  events : List (Event F)
  mat : D.Mat
  output_param : OutputParam F

/-- The function `CreateCvColor(b, g, r)`; `cv_color_is_rgb` says whether the preprocessor
symbol `CV_COLOR_IS_RGB` is defined. -/
def CreateCvColor (cv_color_is_rgb : Bool) (b g r : Int) : Scalar :=
  if cv_color_is_rgb then Scalar.mk r g b else Scalar.mk b g r

/-- The method `ImageProcessor::Initialize` (lines 58-72). -/
def Initialize (D : Deps F) (g : Globals D) (input_param : InputParam) : Outcome D :=
  match g.s_engine with
  | some _ =>
    { ret := -1, globals := g, events := [Event.print_e "Already initialized\n" []] }
  | none =>
    -- s_engine.reset(new DetectionEngine());
    let e0 := D.engine_new
    let r := D.engine_Initialize e0 input_param.work_dir input_param.num_threads
    if r.1 ≠ D.kRetOk then
      -- s_engine->Finalize(); s_engine.reset();
      { ret := -1
        globals := { g with s_engine := none }
        events := [Event.engine_new,
                   Event.engine_Initialize input_param.work_dir input_param.num_threads,
                   Event.engine_Finalize, Event.engine_delete] }
    else
      { ret := 0
        globals := { g with s_engine := some r.2 }
        events := [Event.engine_new,
                   Event.engine_Initialize input_param.work_dir input_param.num_threads] }

/-- The method `ImageProcessor::Finalize` (lines 74-86). -/
def Finalize (D : Deps F) (g : Globals D) : Outcome D :=
  match g.s_engine with
  | none => { ret := -1, globals := g, events := [Event.print_e "Not initialized\n" []] }
  | some e =>
    let r := D.engine_Finalize e
    if r.1 ≠ D.kRetOk then
      { ret := -1, globals := { g with s_engine := some r.2 }, events := [Event.engine_Finalize] }
    else
      { ret := 0, globals := { g with s_engine := some r.2 }, events := [Event.engine_Finalize] }

/-- The method `ImageProcessor::Command` (lines 89-102): `case 0` and `default` share one
body. -/
def Command (D : Deps F) (g : Globals D) (cmd : Int) : Outcome D :=
  match g.s_engine with
  | none => { ret := -1, globals := g, events := [Event.print_e "Not initialized\n" []] }
  | some _ =>
    { ret := -1, globals := g,
      events := [Event.print_e "command(%d) is not supported\n" [cmd]] }

/-- The inner loop of `Process` (lines 129-133), started at index `i`:
`for (; i < track_history.size(); i++) { p0 = ...[i]...; p1 = ...[i - 1]...; cv::line(...) }`.
Returns the `cv::line` calls in the order they are made; `none` when an index outside the
history is read (at `i = 0` the index `i - 1` is outside every history) or `fuel` iterations
do not reach the end of the loop. The counter `i` is an `int32_t` in the source and is
compared with a `size_t`; here it is a natural number, which is the same thing for every
history of fewer than `2^31` entries. -/
def drawTrailFrom (cv_color_is_rgb : Bool) (track_history : List (Data F)) :
    Nat → Nat → Option (List DrawOp)
  | 0, _ => none
  | fuel + 1, i =>
    if i < track_history.length then do
      let cur ← track_history[i]?
      let prev ← if i = 0 then none else track_history[i - 1]?
      let p0 := Point.mk (add32 cur.bbox.x (div32 cur.bbox.w 2)) (add32 cur.bbox.y cur.bbox.h)
      let p1 := Point.mk (add32 prev.bbox.x (div32 prev.bbox.w 2)) (add32 prev.bbox.y prev.bbox.h)
      let rest ← drawTrailFrom cv_color_is_rgb track_history fuel (i + 1)
      pure (DrawOp.line p0 p1 (CreateCvColor cv_color_is_rgb 255 0 0) :: rest)
    else
      pure []

/-- The inner loop of `Process` as the source runs it: from `i = 1`, with fuel for every
index of the history and the final test. -/
def drawTrail (cv_color_is_rgb : Bool) (track_history : List (Data F)) : Option (List DrawOp) :=
  drawTrailFrom cv_color_is_rgb track_history (track_history.length + 1) 1

/-- The body of the outer loop of `Process` for one track (lines 121-133): the drawing calls
it makes, in order. -/
def drawTrack (D : Deps F) (cv_color_is_rgb : Bool) (track : D.Track) : Option (List DrawOp) :=
  if D.cnt_detected_ track < 3 then
    pure []  -- continue
  else do
    let object := D.GetLatestBoundingBox track
    let track_history := D.GetTrackHistory track
    let trail ← drawTrail cv_color_is_rgb track_history
    pure (DrawOp.rectangle (Rect.mk object.x object.y object.w object.h) (Scalar.mk 255 255 0) 3
      :: DrawOp.putText object.label (Point.mk object.x (add32 object.y 10))
          FontFace.FONT_HERSHEY_PLAIN 1 (CreateCvColor cv_color_is_rgb 0 0 0) 3
      :: DrawOp.putText object.label (Point.mk object.x (add32 object.y 10))
          FontFace.FONT_HERSHEY_PLAIN 1 (CreateCvColor cv_color_is_rgb 0 255 0) 1
      :: trail)

/-- The outer loop of `Process` (lines 120-134), `for (auto& track : track_list)`: the
drawing calls of all iterations, in order. -/
def drawTrackList (D : Deps F) (cv_color_is_rgb : Bool) :
    List D.Track → Option (List DrawOp)
  | [] => pure []
  | track :: rest => do
    let ops ← drawTrack D cv_color_is_rgb track
    let ops_rest ← drawTrackList D cv_color_is_rgb rest
    pure (ops ++ ops_rest)

/-- The method `ImageProcessor::Process` (lines 105-163). -/
def Process (D : Deps F) (cv_color_is_rgb : Bool) (g : Globals D) (mat : D.Mat)
    (output_param : OutputParam F) : Option (ProcessOutcome D) :=
  match g.s_engine with
  | none =>
    some { ret := -1, globals := g, events := [Event.print_e "Not initialized\n" []],
           mat := mat, output_param := output_param }
  | some e =>
    let r := D.engine_Process e mat
    let result := r.2.1
    if r.1 ≠ D.kRetOk then
      some { ret := -1, globals := { g with s_engine := some r.2.2 },
             events := [Event.engine_Process], mat := mat, output_param := output_param }
    else do
      let tracker := D.Update g.s_tracker result.bbox_list
      let track_list := D.GetTrackList tracker
      let ops ← drawTrackList D cv_color_is_rgb track_list
      some { ret := 0
             globals := { s_engine := some r.2.2, s_tracker := tracker }
             events := [Event.engine_Process, Event.tracker_Update result.bbox_list,
                        Event.tracker_GetTrackList] ++ ops.map Event.cv
             mat := ops.foldl D.draw mat
             output_param :=
               { output_param with
                 time_pre_process := result.time_pre_process
                 time_inference := result.time_inference
                 time_post_process := result.time_post_process } }

/-! ### The trail of a track, as the specification words it -/

/-- The bottom-centre of the box of a history entry, `(x + w / 2, y + h)`, in `int32_t`
arithmetic with the division truncating. -/
def anchor (e : Data F) : Point :=
  Point.mk (add32 e.bbox.x (div32 e.bbox.w 2)) (add32 e.bbox.y e.bbox.h)

/-- The bottom-centre of the box of a history entry over the integers, without wrap-around. -/
def anchorExact (e : Data F) : Point :=
  Point.mk (e.bbox.x + Int.tdiv e.bbox.w 2) (e.bbox.y + e.bbox.h)

/-- The sums in `anchor` stay inside `int32_t`. -/
def AnchorFits (e : Data F) : Prop :=
  InInt32 e.bbox.w ∧ InInt32 (e.bbox.x + Int.tdiv e.bbox.w 2) ∧ InInt32 (e.bbox.y + e.bbox.h)

/-- The trail of a history: one segment for each pair of neighbours, oldest pair first, from
the anchor of the younger entry to the anchor of the older one. -/
def trailSegments (cv_color_is_rgb : Bool) (track_history : List (Data F)) : List DrawOp :=
  List.zipWith
    (fun prev cur => DrawOp.line (anchor cur) (anchor prev) (CreateCvColor cv_color_is_rgb 255 0 0))
    track_history track_history.tail

/-- The box and the label of a rendered track: one rectangle with the origin and size of
the latest bounding box, then its label twice at `(x, y + 10)`, with thickness 3 and then
thickness 1. Colours and font are those of the source. -/
def boxAndLabel (cv_color_is_rgb : Bool) (latest : BoundingBox F) : List DrawOp :=
  [DrawOp.rectangle (Rect.mk latest.x latest.y latest.w latest.h) (Scalar.mk 255 255 0) 3,
   DrawOp.putText latest.label (Point.mk latest.x (add32 latest.y 10))
     FontFace.FONT_HERSHEY_PLAIN 1 (CreateCvColor cv_color_is_rgb 0 0 0) 3,
   DrawOp.putText latest.label (Point.mk latest.x (add32 latest.y 10))
     FontFace.FONT_HERSHEY_PLAIN 1 (CreateCvColor cv_color_is_rgb 0 255 0) 1]

/-- The drawing of one rendered track: box and label, then the trail. -/
def renderedTrack (D : Deps F) (cv_color_is_rgb : Bool) (track : D.Track) : List DrawOp :=
  boxAndLabel cv_color_is_rgb (D.GetLatestBoundingBox track)
    ++ trailSegments cv_color_is_rgb (D.GetTrackHistory track)

/-- The drawing of a frame as a function of the track list: the drawings of the tracks
with `cnt_detected_ >= 3`, concatenated in track-list order. -/
def renderedFrame (D : Deps F) (cv_color_is_rgb : Bool) (track_list : List D.Track) :
    List DrawOp :=
  ((track_list.filter (fun track => decide (3 ≤ D.cnt_detected_ track))).map
    (renderedTrack D cv_color_is_rgb)).flatten

/-! ### Reading the events of a call -/

/-- The drawing calls among the events, in order. -/
def drawCalls (events : List (Event F)) : List DrawOp :=
  events.filterMap (fun ev => match ev with
    | Event.cv op => some op
    | _ => none)

/-- The arguments of the `s_tracker.Update` calls among the events, in order. -/
def updateCalls (events : List (Event F)) : List (List (BoundingBox F)) :=
  events.filterMap (fun ev => match ev with
    | Event.tracker_Update bbox_list => some bbox_list
    | _ => none)

/-- The events that call into the detection engine or create or destroy one. -/
def engineCalls (events : List (Event F)) : List (Event F) :=
  events.filter (fun ev => match ev with
    | Event.engine_new => true
    | Event.engine_Initialize _ _ => true
    | Event.engine_Finalize => true
    | Event.engine_delete => true
    | Event.engine_Process => true
    | _ => false)

/-- The error print of the `if (!s_engine)` check of `Finalize`, `Command` and `Process`. -/
def notInitialized : Event F := Event.print_e "Not initialized\n" []

/-! ### Sequences of calls -/

/-- One call of the public interface of `ImageProcessor`, with its arguments. -/
inductive Call (D : Deps F) where
  | Initialize (input_param : InputParam)
  | Finalize
  | Command (cmd : Int)
  | Process (mat : D.Mat) (output_param : OutputParam F)

/-- A call that was made: the call, its return value, its events, the globals after it. -/
structure Step (D : Deps F) where
  call : Call D
  ret : Int
  events : List (Event F)
  globals : Globals D

/-- Make one call on the globals `g`. -/
def step (D : Deps F) (cv_color_is_rgb : Bool) (g : Globals D) : Call D → Option (Step D)
  | Call.Initialize input_param =>
    let o := Initialize D g input_param
    some { call := Call.Initialize input_param, ret := o.ret, events := o.events,
           globals := o.globals }
  | Call.Finalize =>
    let o := Finalize D g
    some { call := Call.Finalize, ret := o.ret, events := o.events, globals := o.globals }
  | Call.Command cmd =>
    let o := Command D g cmd
    some { call := Call.Command cmd, ret := o.ret, events := o.events, globals := o.globals }
  | Call.Process mat output_param =>
    (Process D cv_color_is_rgb g mat output_param).map (fun o =>
      { call := Call.Process mat output_param, ret := o.ret, events := o.events,
        globals := o.globals })

/-- Make the calls one after the other, each on the globals the previous one left. -/
def run (D : Deps F) (cv_color_is_rgb : Bool) : Globals D → List (Call D) → Option (List (Step D))
  | _, [] => some []
  | g, c :: cs => do
    let s ← step D cv_color_is_rgb g c
    let rest ← run D cv_color_is_rgb s.globals cs
    pure (s :: rest)

/-- The globals after a run that started from `g`. -/
def finalGlobals {D : Deps F} (g : Globals D) (steps : List (Step D)) : Globals D :=
  match steps.getLast? with
  | some s => s.globals
  | none => g

end ImageProcessor

/-! ## The classification engine -/

namespace ClassificationEngine

/-- The member `tensor_dims` of a tensor info. -/
structure TensorDims where
  batch : Int
  width : Int
  height : Int
  channel : Int
deriving DecidableEq, Repr

/-- The member `image_info` of `InputTensorInfo`. -/
structure ImageInfo where
  width : Int
  height : Int
  channel : Int
  crop_x : Int
  crop_y : Int
  crop_width : Int
  crop_height : Int
  is_bgr : Bool
  swap_color : Bool
deriving DecidableEq, Repr

/-- The type `InputTensorInfo`: the members `Process` reads or writes. `data` is the image
the pointer `data` points to. -/
structure InputTensorInfo (Mat : Type) where
  tensor_dims : TensorDims
  data : Option Mat
  data_type : Int
  image_info : ImageInfo

/-- The type `OutputTensorInfo`: the members `Process` reads. `data_as_float i` is
`GetDataAsFloat()[i]`, the float at offset `i` behind the pointer the tensor hands out; the
extent of that buffer is the inference helper's business. -/
structure OutputTensorInfo (F : Type) where
  tensor_dims : TensorDims
  data_as_float : Nat → F

/-- The type `ClassificationEngine::Result`. -/
structure Result (F : Type) where
  class_id : Int
  class_name : String
  score : F
  time_pre_process : F
  time_inference : F
  time_post_process : F
deriving DecidableEq, Repr

/-- The six readings of `std::chrono::steady_clock::now()` that `Process` takes. -/
structure Clock (T : Type) where
  tPreProcess0 : T
  tPreProcess1 : T
  tInference0 : T
  tInference1 : T
  tPostProcess0 : T
  tPostProcess1 : T

/-- Everything `classification_engine.cpp` uses and does not define: the inference helper
(`inference_helper.h`), OpenCV's images, the constants of `classification_engine.h`, the clock
arithmetic and the file system. -/
structure Deps (F : Type) where
  InferenceHelper : Type
  Mat : Type
  TimePoint : Type
  /-- The constant `ClassificationEngine::kRetOk`. -/
  kRetOk : Int
  /-- The constant `ClassificationEngine::kRetErr`. -/
  kRetErr : Int
  /-- The constant `InferenceHelper::kRetOk`. -/
  helper_kRetOk : Int
  /-- The constant `InputTensorInfo::kDataTypeImage`. -/
  kDataTypeImage : Int
  /-- The call `cv::resize(src, dst, cv::Size(width, height))`, as the image `dst`. -/
  cv_resize : Mat → Int → Int → Mat
  /-- The call `cv::cvtColor(img, img, cv::COLOR_BGR2RGB)`, as the image after it. -/
  cv_cvtColor_BGR2RGB : Mat → Mat
  cols : Mat → Int
  rows : Mat → Int
  channels : Mat → Int
  /-- The method `InferenceHelper::PreProcess(const std::vector<InputTensorInfo>&)`. -/
  helper_PreProcess : InferenceHelper → List (InputTensorInfo Mat) → Int × InferenceHelper
  /-- The method `InferenceHelper::Process(std::vector<OutputTensorInfo>&)`: the return
  value, the helper after the call, the tensor list after the call. -/
  helper_Process : InferenceHelper → List (OutputTensorInfo F) →
    Int × InferenceHelper × List (OutputTensorInfo F)
  /-- The expression `static_cast<std::chrono::duration<double>>(t1 - t0).count() * 1000.0`,
  as a function of `t0` and `t1`. -/
  duration_ms : TimePoint → TimePoint → F
  /-- The float `0.0f` that `resize` fills a vector with. -/
  zero : F
  /-- The content of the file `std::ifstream ifs(filename)` opens, character by character;
  `none` when the stream fails to open. -/
  ifstream : String → Option (List Char)

variable {F : Type}

/-- The members of a `ClassificationEngine` object that `Process` and `ReadLabel` use. -/
structure Members (D : Deps F) where
  m_inferenceHelper : Option D.InferenceHelper
  m_inputTensorList : List (InputTensorInfo D.Mat)
  m_outputTensorList : List (OutputTensorInfo F)
  m_labelList : List String
  with_background_ : Bool

/-- Lines 123-140 of `Process`: the image is resized to the dimensions of
`m_inputTensorList[0]`, converted to RGB unless `CV_COLOR_IS_RGB` is defined, and described in
`m_inputTensorList[0]`. Returns the tensor list after these writes. -/
def prepareInput (D : Deps F) (cv_color_is_rgb : Bool)
    (m_inputTensorList : List (InputTensorInfo D.Mat)) (original_mat : D.Mat) :
    Option (List (InputTensorInfo D.Mat)) := do
  let inputTensorInfo ← m_inputTensorList[0]?
  let resized := D.cv_resize original_mat inputTensorInfo.tensor_dims.width
    inputTensorInfo.tensor_dims.height
  let imgSrc := if cv_color_is_rgb then resized else D.cv_cvtColor_BGR2RGB resized
  pure (m_inputTensorList.set 0
    { inputTensorInfo with
      data := some imgSrc
      data_type := D.kDataTypeImage
      image_info :=
        { width := D.cols imgSrc, height := D.rows imgSrc, channel := D.channels imgSrc,
          crop_x := 0, crop_y := 0, crop_width := D.cols imgSrc, crop_height := D.rows imgSrc,
          is_bgr := false, swap_color := false } })

/-- The loop of lines 160-162, started at index `i`:
`for (; i < (int32_t)outputScoreList.size(); i++) outputScoreList[i] = valFloat[i];`.
Returns the vector after the loop; `none` when `fuel` iterations do not reach its end. -/
def copyScoresFrom (valFloat : Nat → F) : Nat → Nat → List F → Option (List F)
  | 0, _, _ => none
  | fuel + 1, i, outputScoreList =>
    if i < outputScoreList.length then
      copyScoresFrom valFloat fuel (i + 1) (outputScoreList.set i (valFloat i))
    else
      some outputScoreList

/-- Lines 157-162 of `Process`: the vector `outputScoreList` after the copy loop. The size
is the `int32_t` product `width * height * channel` of `m_outputTensorList[0]`; a negative
product converts to a `size_t` beyond `max_size()` and `resize` throws, which is `none`. -/
def retrieveScores (D : Deps F) (m_outputTensorList : List (OutputTensorInfo F)) :
    Option (List F) := do
  let out0 ← m_outputTensorList[0]?
  let size := mul32 (mul32 out0.tensor_dims.width out0.tensor_dims.height)
    out0.tensor_dims.channel
  if size < 0 then
    none
  else
    let outputScoreList := List.replicate size.toNat D.zero
    copyScoresFrom out0.data_as_float (size.toNat + 1) 0 outputScoreList

/-- The loop of `std::max_element` over the rest of a range: `largest` is the index of the
largest element so far, `largestVal` its value, `i` the index of the first element of the
rest. An element replaces the largest one only when it is strictly greater. -/
def max_element_from [LT F] [DecidableRel (fun a b : F => a < b)] :
    List F → Nat → F → Nat → Nat
  | [], largest, _, _ => largest
  | x :: rest, largest, largestVal, i =>
    if largestVal < x then max_element_from rest i x (i + 1)
    else max_element_from rest largest largestVal (i + 1)

/-- The expression `std::max_element(v.begin(), v.end()) - v.begin()`: the reference
algorithm of the standard library. For an empty vector the iterator is `v.end()`, at
distance 0 from `v.begin()`. -/
def max_element [LT F] [DecidableRel (fun a b : F => a < b)] (v : List F) : Nat :=
  match v with
  | [] => 0
  | x :: rest => max_element_from rest 0 x 1

/-- The method `ClassificationEngine::Process` (lines 115-179), without its prints. The
result is the return value, the members after the call and `result` after the call; `none`
when a vector is read outside its bounds, an iterator at `end()` is dereferenced or `resize`
throws. -/
def Process [LT F] [DecidableRel (fun a b : F => a < b)] (D : Deps F) (cv_color_is_rgb : Bool)
    (self : Members D) (now : Clock D.TimePoint) (original_mat : D.Mat) (result : Result F) :
    Option (Int × Members D × Result F) :=
  match self.m_inferenceHelper with
  | none => some (D.kRetErr, self, result)
  | some helper => do
    /- PreProcess -/
    let m_inputTensorList ← prepareInput D cv_color_is_rgb self.m_inputTensorList original_mat
    let pre := D.helper_PreProcess helper m_inputTensorList
    if pre.1 ≠ D.helper_kRetOk then
      some (D.kRetErr,
        { self with m_inferenceHelper := some pre.2, m_inputTensorList := m_inputTensorList },
        result)
    else
      /- Inference -/
      let inf := D.helper_Process pre.2 self.m_outputTensorList
      let self1 : Members D :=
        { self with
          m_inferenceHelper := some inf.2.1
          m_inputTensorList := m_inputTensorList
          m_outputTensorList := inf.2.2 }
      if inf.1 ≠ D.helper_kRetOk then
        some (D.kRetErr, self1, result)
      else do
        /- PostProcess -/
        let outputScoreList ← retrieveScores D inf.2.2
        let maxIndex : Int := wrap32 (max_element outputScoreList : Nat)
        let maxScore ← outputScoreList[max_element outputScoreList]?
        let class_name ← if maxIndex < 0 then none else self.m_labelList[maxIndex.toNat]?
        some (D.kRetOk, self1,
          { class_id := maxIndex
            class_name := class_name
            score := maxScore
            time_pre_process := D.duration_ms now.tPreProcess0 now.tPreProcess1
            time_inference := D.duration_ms now.tInference0 now.tInference1
            time_post_process := D.duration_ms now.tPostProcess0 now.tPostProcess1 })

/-- The call `std::getline(ifs, str)` on a stream with the characters `rest` left to read:
`none` when no character is left (the stream fails); otherwise the characters up to the first
newline or to the end, and what is left after them and after the newline, which is consumed
and not stored. -/
def getline (rest : List Char) : Option (String × List Char) :=
  match rest with
  | [] => none
  | _ :: _ =>
    some (String.mk (rest.takeWhile (fun c => c != '\n')),
          (rest.dropWhile (fun c => c != '\n')).drop 1)

/-- The loop of lines 193-196, `while (getline(ifs, str)) labelList.push_back(str);`: the
vector after the loop; `none` when `fuel` iterations do not reach its end. -/
def readLines : Nat → List Char → List String → Option (List String)
  | 0, _, _ => none
  | fuel + 1, rest, labelList =>
    match getline rest with
    | none => some labelList
    | some (str, rest') => readLines fuel rest' (labelList ++ [str])

/-- The method `ClassificationEngine::ReadLabel` (lines 182-198), without its print: the
return value and `labelList` after the call. -/
def ReadLabel (D : Deps F) (with_background_ : Bool) (filename : String)
    (labelList : List String) : Option (Int × List String) :=
  match D.ifstream filename with
  | none => some (D.kRetErr, labelList)
  | some content =>
    -- labelList.clear();
    let labelList : List String := []
    let labelList := if with_background_ then labelList ++ ["background"] else labelList
    (readLines (content.length + 1) content labelList).map (fun l => (D.kRetOk, l))

/-! ### The output scores, as the specification words them -/

/-- The score list of an output tensor: the floats at offsets `0` to `size - 1` of its
buffer, where `size` is the `int32_t` product `width * height * channel`. -/
def tensorScores (out0 : OutputTensorInfo F) : List F :=
  (List.range (mul32 (mul32 out0.tensor_dims.width out0.tensor_dims.height)
    out0.tensor_dims.channel).toNat).map out0.data_as_float

/-! ### The lines of a file, as the specification words them -/

/-- The lines of a text: the pieces between newlines, in order; a newline at the very end
terminates the last line and starts no further one, and the empty text has no line. -/
def fileLines (content : List Char) : List String :=
  let pieces := content.splitOn '\n'
  (if pieces.getLast? = some [] then pieces.dropLast else pieces).map String.mk

end ClassificationEngine

/-! ## A small instance of the dependencies

Used to run the embedding on concrete inputs. The engine counts the frames it has seen and
reports one fixed detection; the tracker keeps one track per detection of the first frame and
extends it on every later frame. -/

namespace Demo

/-- A track of the demo tracker. -/
structure Track where
  cnt_detected_ : Int
  cnt_undetected_ : Int
  history : List (Data Int)
deriving DecidableEq, Repr

/-- The box of the newest history entry (an all-zero box for an empty history). -/
def Track.latest (t : Track) : BoundingBox Int :=
  match t.history.getLast? with
  | some d => d.bbox
  | none => BoundingBox.mk 0 "" 0 0 0 0 0

/-- The demo tracker: with no track yet every detection starts one, afterwards every track is
extended by the first detection of the frame or counts a miss. -/
def update (tracks : List Track) (bbox_list : List (BoundingBox Int)) : List Track :=
  match tracks with
  | [] => bbox_list.map (fun b => Track.mk 1 0 [Data.mk b])
  | _ =>
    tracks.map (fun t =>
      match bbox_list.head? with
      | some b => Track.mk (t.cnt_detected_ + 1) 0 (t.history ++ [Data.mk b])
      | none => Track.mk t.cnt_detected_ (t.cnt_undetected_ + 1) t.history)

/-- The detection the demo engine reports at frame `n`. -/
def detection (n : Nat) : BoundingBox Int :=
  BoundingBox.mk 1 "person" 90 (10 + 4 * n) 20 31 50

/-- The demo dependencies: the engine fails to initialise on an empty `work_dir` and fails to
process once it has seen 100 frames; the frame is the list of drawing calls made on it. -/
def deps : ImageProcessor.Deps Int where
  DetectionEngine := Nat
  Tracker := List Track
  Track := Track
  Mat := List DrawOp
  kRetOk := 0
  engine_new := 0
  engine_Initialize := fun e work_dir _ => if work_dir = "" then (-1, e) else (0, e)
  engine_Finalize := fun e => (0, e)
  engine_Process := fun e _ =>
    if e < 100 then (0, Result.mk [detection e] 1 2 3, e + 1) else (-1, Result.mk [] 0 0 0, e)
  Update := update
  GetTrackList := fun tracks => tracks
  cnt_detected_ := Track.cnt_detected_
  GetLatestBoundingBox := Track.latest
  GetTrackHistory := Track.history
  draw := fun mat op => mat ++ [op]

/-- Globals with no engine held and no track. -/
def g0 : ImageProcessor.Globals deps := { s_engine := none, s_tracker := [] }

/-- Globals with an engine held that has seen two frames, and one track seen twice. -/
def g2 : ImageProcessor.Globals deps :=
  { s_engine := some (2 : Nat)
    s_tracker := [Track.mk 2 0 [Data.mk (detection 0), Data.mk (detection 1)]] }

/-- An output parameter with one object in its list. -/
def out0 : OutputParam Int :=
  { object_num := 1, object_list := [OutputObject.mk 7 "old" 5 1 2 3 4],
    time_pre_process := -1, time_inference := -1, time_post_process := -1 }

/-- An input parameter of `Initialize`. -/
def in0 : InputParam := { work_dir := "/res", num_threads := 4 }

/-- A demo track seen three times, with a history of three boxes. -/
def t3 : Track :=
  Track.mk 3 0 [Data.mk (detection 0), Data.mk (detection 1), Data.mk (detection 2)]

/-- The demo dependencies of the classification engine: the helper always succeeds and
reports three scores `10, 30, 30`; the file `labels.txt` holds the two lines `cat` and `dog`,
the file `short.txt` the single line `cat`, and no other file exists. -/
def cdeps : ClassificationEngine.Deps Int where
  InferenceHelper := Unit
  Mat := Nat
  TimePoint := Int
  kRetOk := 0
  kRetErr := -1
  helper_kRetOk := 0
  kDataTypeImage := 1
  cv_resize := fun m _ _ => m
  cv_cvtColor_BGR2RGB := fun m => m
  cols := fun _ => 280
  rows := fun _ => 280
  channels := fun _ => 3
  helper_PreProcess := fun h _ => (0, h)
  helper_Process := fun h _ =>
    (0, h, [ClassificationEngine.OutputTensorInfo.mk
              (ClassificationEngine.TensorDims.mk 1 1 1 3) (fun i => [10, 30, 30].getD i 0)])
  duration_ms := fun t0 t1 => (t1 - t0) * 1000
  zero := 0
  ifstream := fun filename =>
    if filename = "labels.txt" then some ['c', 'a', 't', '\n', 'd', 'o', 'g', '\n']
    else if filename = "short.txt" then some ['c', 'a', 't']
    else none

/-- The input tensor the demo engine is set up with. -/
def input0 : ClassificationEngine.InputTensorInfo Nat :=
  { tensor_dims := ClassificationEngine.TensorDims.mk 1 280 280 3, data := none, data_type := 1,
    image_info := ClassificationEngine.ImageInfo.mk 0 0 0 0 0 0 0 false false }

/-- A demo engine with a label for every score: `background`, `cat`, `dog`. -/
def engine3 : ClassificationEngine.Members cdeps :=
  { m_inferenceHelper := some (), m_inputTensorList := [input0], m_outputTensorList := [],
    m_labelList := ["background", "cat", "dog"], with_background_ := true }

/-- A demo engine whose label list has a single entry, fewer than there are scores. -/
def engine1 : ClassificationEngine.Members cdeps :=
  { m_inferenceHelper := some (), m_inputTensorList := [input0], m_outputTensorList := [],
    m_labelList := ["cat"], with_background_ := false }

/-- Clock readings of the demo. -/
def clock0 : ClassificationEngine.Clock Int :=
  { tPreProcess0 := 0, tPreProcess1 := 2, tInference0 := 2, tInference1 := 9,
    tPostProcess0 := 9, tPostProcess1 := 10 }

/-- A result object before a call. -/
def result0 : ClassificationEngine.Result Int :=
  { class_id := -7, class_name := "none", score := 0, time_pre_process := 0,
    time_inference := 0, time_post_process := 0 }

end Demo

/-! ## Proofs -/

section Arith

theorem wrap32_of_inInt32 {n : Int} (h : InInt32 n) : wrap32 n = n := by
  unfold InInt32 at h
  unfold wrap32
  omega

theorem tdiv_two_inInt32 {w : Int} (h : InInt32 w) : InInt32 (Int.tdiv w 2) := by
  unfold InInt32 at *
  rcases le_or_lt 0 w with hw | hw
  · rw [Int.tdiv_eq_ediv hw (by decide)]; omega
  · have hneg : Int.tdiv w 2 = -((-w) / 2) := by
      rw [← Int.tdiv_eq_ediv (by omega) (by decide), Int.neg_tdiv, neg_neg]
    rw [hneg]; omega

theorem neg_one_ne_zero_int : (-1 : Int) ≠ 0 := by decide

theorem zero_ne_neg_one_int : (0 : Int) ≠ -1 := by decide

end Arith

namespace ImageProcessor

variable {F : Type}

theorem anchor_eq_anchorExact (e : Data F) (h : AnchorFits e) : anchor e = anchorExact e := by
  obtain ⟨hw, hx, hy⟩ := h
  have hdiv : InInt32 (Int.tdiv e.bbox.w 2) := tdiv_two_inInt32 hw
  simp only [anchor, anchorExact, add32, div32, wrap32_of_inInt32 hdiv, wrap32_of_inInt32 hx,
    wrap32_of_inInt32 hy]

/-- The segments drawn from index `i` on are those of the neighbours from `i - 1` on. -/
theorem drawTrailFrom_eq (rgb : Bool) (h : List (Data F)) :
    ∀ (fuel i : Nat), 1 ≤ i → h.length - i < fuel →
      drawTrailFrom rgb h fuel i
        = some (List.zipWith
            (fun prev cur => DrawOp.line (anchor cur) (anchor prev) (CreateCvColor rgb 255 0 0))
            (h.drop (i - 1)) (h.drop i)) := by
  intro fuel
  induction fuel with
  | zero => intro i _ hf; omega
  | succ fuel ih =>
    intro i hi hf
    unfold drawTrailFrom
    by_cases hlt : i < h.length
    · have hprev : i - 1 < h.length := by omega
      have hrec := ih (i + 1) (by omega) (by omega)
      rw [Nat.add_sub_cancel] at hrec
      have hd1 : h.drop (i - 1) = h[i - 1] :: h.drop i := by
        have := List.drop_eq_getElem_cons hprev
        rw [this]
        congr 2
        omega
      have hd2 : h.drop i = h[i] :: h.drop (i + 1) := List.drop_eq_getElem_cons hlt
      have hi0 : i ≠ 0 := by omega
      simp only [hlt, if_true, hi0, if_false, List.getElem?_eq_getElem hlt,
        List.getElem?_eq_getElem hprev, Option.bind_eq_bind, Option.some_bind, hrec,
        Option.pure_def]
      rw [hd1, hd2]
      simp only [List.zipWith_cons_cons, anchor]
    · have : h.drop i = [] := List.drop_eq_nil_of_le (by omega)
      simp [hlt, this]

theorem drawTrail_eq (rgb : Bool) (h : List (Data F)) :
    drawTrail rgb h = some (trailSegments rgb h) := by
  unfold drawTrail trailSegments
  rw [drawTrailFrom_eq rgb h (h.length + 1) 1 (le_refl 1) (by omega)]
  simp

/-! ### The loops of `Process` -/

theorem drawTrack_eq (D : Deps F) (rgb : Bool) (track : D.Track) :
    drawTrack D rgb track
      = some (if D.cnt_detected_ track < 3 then [] else renderedTrack D rgb track) := by
  unfold drawTrack
  by_cases hc : D.cnt_detected_ track < 3
  · simp [hc]
  · simp [hc, drawTrail_eq, renderedTrack, boxAndLabel]

theorem drawTrackList_eq (D : Deps F) (rgb : Bool) (track_list : List D.Track) :
    drawTrackList D rgb track_list
      = some ((track_list.map (fun track =>
          if D.cnt_detected_ track < 3 then [] else renderedTrack D rgb track)).flatten) := by
  induction track_list with
  | nil => rfl
  | cons track rest ih =>
    unfold drawTrackList
    rw [drawTrack_eq, ih]
    rfl

theorem flatten_map_eq_renderedFrame (D : Deps F) (rgb : Bool) (track_list : List D.Track) :
    (track_list.map (fun track =>
        if D.cnt_detected_ track < 3 then [] else renderedTrack D rgb track)).flatten
      = renderedFrame D rgb track_list := by
  unfold renderedFrame
  induction track_list with
  | nil => rfl
  | cons track rest ih =>
    by_cases hc : D.cnt_detected_ track < 3
    · have hn : ¬ (3 ≤ D.cnt_detected_ track) := by omega
      simp only [List.map_cons, List.flatten_cons, hc, if_true, List.nil_append, ih,
        List.filter_cons, hn, decide_False, Bool.false_eq_true, if_false]
    · have hn : 3 ≤ D.cnt_detected_ track := by omega
      simp only [List.map_cons, List.flatten_cons, hc, if_false, ih,
        List.filter_cons, hn, decide_True, if_true]

theorem drawTrackList_eq_renderedFrame (D : Deps F) (rgb : Bool) (track_list : List D.Track) :
    drawTrackList D rgb track_list = some (renderedFrame D rgb track_list) := by
  rw [drawTrackList_eq, flatten_map_eq_renderedFrame]

theorem drawCalls_map_cv (ops : List DrawOp) :
    drawCalls (ops.map (Event.cv : DrawOp → Event F)) = ops := by
  induction ops with
  | nil => rfl
  | cons op rest ih => simp only [List.map_cons, drawCalls, List.filterMap_cons] at ih ⊢; rw [ih]

theorem updateCalls_map_cv (ops : List DrawOp) :
    updateCalls (ops.map (Event.cv : DrawOp → Event F)) = [] := by
  induction ops with
  | nil => rfl
  | cons op rest ih => simp only [List.map_cons, updateCalls, List.filterMap_cons] at ih ⊢; rw [ih]

/-! ### The three ways through `Process` -/

theorem Process_not_held (D : Deps F) (rgb : Bool) (g : Globals D) (mat : D.Mat)
    (output_param : OutputParam F) (hg : g.s_engine = none) :
    Process D rgb g mat output_param
      = some { ret := -1, globals := g, events := [notInitialized], mat := mat,
               output_param := output_param } := by
  unfold Process
  rw [hg]
  rfl

theorem Process_engine_failed (D : Deps F) (rgb : Bool) (g : Globals D) (mat : D.Mat)
    (output_param : OutputParam F) (e : D.DetectionEngine) (hg : g.s_engine = some e)
    (hfail : (D.engine_Process e mat).1 ≠ D.kRetOk) :
    Process D rgb g mat output_param
      = some { ret := -1
               globals := { s_engine := some (D.engine_Process e mat).2.2,
                            s_tracker := g.s_tracker }
               events := [Event.engine_Process], mat := mat, output_param := output_param } := by
  unfold Process
  rw [hg]
  simp only [hfail, ne_eq, not_false_eq_true, if_true]

theorem Process_engine_ok (D : Deps F) (rgb : Bool) (g : Globals D) (mat : D.Mat)
    (output_param : OutputParam F) (e : D.DetectionEngine) (hg : g.s_engine = some e)
    (hok : (D.engine_Process e mat).1 = D.kRetOk) :
    Process D rgb g mat output_param
      = some { ret := 0
               globals := { s_engine := some (D.engine_Process e mat).2.2,
                            s_tracker := D.Update g.s_tracker (D.engine_Process e mat).2.1.bbox_list }
               events :=
                 [Event.engine_Process,
                  Event.tracker_Update (D.engine_Process e mat).2.1.bbox_list,
                  Event.tracker_GetTrackList]
                 ++ (renderedFrame D rgb (D.GetTrackList
                      (D.Update g.s_tracker (D.engine_Process e mat).2.1.bbox_list))).map Event.cv
               mat := (renderedFrame D rgb (D.GetTrackList
                      (D.Update g.s_tracker (D.engine_Process e mat).2.1.bbox_list))).foldl D.draw mat
               output_param :=
                 { output_param with
                   time_pre_process := (D.engine_Process e mat).2.1.time_pre_process
                   time_inference := (D.engine_Process e mat).2.1.time_inference
                   time_post_process := (D.engine_Process e mat).2.1.time_post_process } } := by
  unfold Process
  rw [hg]
  simp only [hok, ne_eq, not_true_eq_false, if_false, drawTrackList_eq_renderedFrame,
    Option.bind_eq_bind, Option.some_bind]

theorem Process_ok (D : Deps F) (rgb : Bool) (g : Globals D) (mat : D.Mat)
    (output_param : OutputParam F) (e e' : D.DetectionEngine) (result : Result F)
    (hg : g.s_engine = some e) (hok : D.engine_Process e mat = (D.kRetOk, result, e')) :
    Process D rgb g mat output_param
      = some { ret := 0
               globals := { s_engine := some e',
                            s_tracker := D.Update g.s_tracker result.bbox_list }
               events :=
                 [Event.engine_Process, Event.tracker_Update result.bbox_list,
                  Event.tracker_GetTrackList]
                 ++ (renderedFrame D rgb (D.GetTrackList
                      (D.Update g.s_tracker result.bbox_list))).map Event.cv
               mat := (renderedFrame D rgb (D.GetTrackList
                      (D.Update g.s_tracker result.bbox_list))).foldl D.draw mat
               output_param :=
                 { output_param with
                   time_pre_process := result.time_pre_process
                   time_inference := result.time_inference
                   time_post_process := result.time_post_process } } := by
  have h := Process_engine_ok D rgb g mat output_param e hg (by rw [hok])
  rw [hok] at h
  exact h

theorem drawCalls_ok_events (bbox_list : List (BoundingBox F)) (ops : List DrawOp) :
    drawCalls ([Event.engine_Process, Event.tracker_Update bbox_list,
        Event.tracker_GetTrackList] ++ ops.map Event.cv) = ops := by
  have h := drawCalls_map_cv (F := F) ops
  unfold drawCalls at h ⊢
  rw [List.filterMap_append, h]
  rfl

theorem updateCalls_ok_events (bbox_list : List (BoundingBox F)) (ops : List DrawOp) :
    updateCalls ([Event.engine_Process, Event.tracker_Update bbox_list,
        Event.tracker_GetTrackList] ++ ops.map Event.cv) = [bbox_list] := by
  have h := updateCalls_map_cv (F := F) ops
  unfold updateCalls at h ⊢
  rw [List.filterMap_append, h]
  rfl

theorem trailSegments_length (rgb : Bool) (h : List (Data F)) :
    (trailSegments rgb h).length = h.length - 1 := by
  unfold trailSegments
  rw [List.length_zipWith, List.length_tail]
  omega

theorem trailSegments_getElem? (rgb : Bool) (h : List (Data F)) (i : Nat) (h1 : 1 ≤ i)
    (hi : i < h.length) :
    (trailSegments rgb h)[i - 1]?
      = some (DrawOp.line (anchor h[i]) (anchor h[i - 1]) (CreateCvColor rgb 255 0 0)) := by
  unfold trailSegments
  have hprev : i - 1 < h.length := by omega
  have ht : h.tail[i - 1]? = some h[i] := by
    rw [List.getElem?_tail, List.getElem?_eq_getElem (by omega)]
    congr 2
    omega
  rw [List.getElem?_zipWith, List.getElem?_eq_getElem hprev, ht]

/-! ### Sequences of calls on a processor that holds an engine -/

theorem step_held (D : Deps F) (rgb : Bool) (g : Globals D) (c : Call D)
    (hg : g.s_engine.isSome = true) :
    ∃ s, step D rgb g c = some s ∧ s.call = c ∧ s.globals.s_engine.isSome = true ∧
      (∀ input_param, c = Call.Initialize input_param → s.ret = -1) ∧
      notInitialized ∉ s.events := by
  obtain ⟨e, he⟩ := Option.isSome_iff_exists.mp hg
  cases c with
  | Initialize input_param =>
    refine ⟨_, rfl, rfl, ?_, ?_, ?_⟩ <;> simp [Initialize, he, notInitialized]
  | Finalize =>
    refine ⟨_, rfl, rfl, ?_, ?_, ?_⟩
    · simp only [Finalize, he]; split <;> rfl
    · intro _ h; cases h
    · simp only [Finalize, he]; split <;> simp [notInitialized]
  | Command cmd =>
    refine ⟨_, rfl, rfl, ?_, ?_, ?_⟩
    · simp [Command, he]
    · intro _ h; cases h
    · simp [Command, he, notInitialized]
  | Process mat output_param =>
    by_cases hok : (D.engine_Process e mat).1 = D.kRetOk
    · have hstep := congrArg (Option.map (fun o : ProcessOutcome D =>
          ({ call := Call.Process mat output_param, ret := o.ret, events := o.events,
             globals := o.globals } : Step D)))
        (Process_engine_ok D rgb g mat output_param e he hok)
      refine ⟨_, hstep, rfl, rfl, ?_, ?_⟩
      · intro _ h; cases h
      · simp [notInitialized]
    · have hstep := congrArg (Option.map (fun o : ProcessOutcome D =>
          ({ call := Call.Process mat output_param, ret := o.ret, events := o.events,
             globals := o.globals } : Step D)))
        (Process_engine_failed D rgb g mat output_param e he hok)
      refine ⟨_, hstep, rfl, rfl, ?_, ?_⟩
      · intro _ h; cases h
      · simp [notInitialized]

theorem run_held (D : Deps F) (rgb : Bool) (calls : List (Call D)) :
    ∀ g : Globals D, g.s_engine.isSome = true →
      ∃ steps, run D rgb g calls = some steps ∧ steps.map Step.call = calls ∧
        (finalGlobals g steps).s_engine.isSome = true ∧
        ∀ s ∈ steps, s.globals.s_engine.isSome = true ∧
          (∀ input_param, s.call = Call.Initialize input_param → s.ret = -1) ∧
          notInitialized ∉ s.events := by
  induction calls with
  | nil =>
    intro g hg
    exact ⟨[], rfl, rfl, hg, by simp⟩
  | cons c cs ih =>
    intro g hg
    obtain ⟨s, hs, hcall, hheld, hinit, hprint⟩ := step_held D rgb g c hg
    obtain ⟨rest, hrest, hcalls, hfinal, hall⟩ := ih s.globals hheld
    refine ⟨s :: rest, ?_, ?_, ?_, ?_⟩
    · simp only [run, hs, hrest, Option.bind_eq_bind, Option.some_bind, Option.pure_def]
    · simp only [List.map_cons, hcall, hcalls]
    · cases rest with
      | nil => simpa [finalGlobals] using hheld
      | cons r rs =>
        simpa [finalGlobals, List.getLast?_cons_cons] using hfinal
    · intro t ht
      rcases List.mem_cons.mp ht with rfl | ht
      · exact ⟨hheld, fun ip h => hinit ip (hcall ▸ h), hprint⟩
      · exact hall t ht

/-! ### Properties of `ImageProcessor::Process` -/

/-- C1: when the processor holds an engine and the engine's `Process` returns `kRetOk`,
`ImageProcessor::Process` returns, and the drawing calls it makes split into one block per
track of the list returned by the tracker after `Update`, in list order. The block of a track
is what the loop body draws for it; it is non-empty if and only if `cnt_detected_ >= 3`; for
`cnt_detected_ < 3` it is empty (no drawing call at all) and for `cnt_detected_ >= 3` it is the
rectangle, the label twice and the trail. The count of detections is the only thing the
decision reads: two tracks with the same `cnt_detected_` are both drawn or both skipped. -/
theorem C1_track_rendered_iff_detected_three_times (D : Deps F) (rgb : Bool) (g : Globals D)
    (mat : D.Mat) (output_param : OutputParam F) (e e' : D.DetectionEngine) (result : Result F)
    (hheld : g.s_engine = some e)
    (hok : D.engine_Process e mat = (D.kRetOk, result, e')) :
    ∃ out blocks,
      Process D rgb g mat output_param = some out ∧
      drawCalls out.events = blocks.flatten ∧
      List.Forall₂
        (fun track block =>
          drawTrack D rgb track = some block ∧
          (block ≠ [] ↔ 3 ≤ D.cnt_detected_ track) ∧
          (D.cnt_detected_ track < 3 → block = []) ∧
          (3 ≤ D.cnt_detected_ track →
            block = boxAndLabel rgb (D.GetLatestBoundingBox track)
                      ++ trailSegments rgb (D.GetTrackHistory track)))
        (D.GetTrackList (D.Update g.s_tracker result.bbox_list)) blocks ∧
      ∀ track1 track2 : D.Track, D.cnt_detected_ track1 = D.cnt_detected_ track2 →
        (drawTrack D rgb track1 = some [] ↔ drawTrack D rgb track2 = some []) := by
  refine ⟨_, (D.GetTrackList (D.Update g.s_tracker result.bbox_list)).map (fun track =>
      if D.cnt_detected_ track < 3 then [] else renderedTrack D rgb track),
    Process_ok D rgb g mat output_param e e' result hheld hok, ?_, ?_, ?_⟩
  · rw [flatten_map_eq_renderedFrame]
    exact drawCalls_ok_events _ _
  rotate_left
  · intro track1 track2 hsame
    rw [drawTrack_eq, drawTrack_eq, hsame]
    by_cases hc : D.cnt_detected_ track2 < 3
    · simp [hc]
    · simp [hc, renderedTrack, boxAndLabel]
  · rw [List.forall₂_map_right_iff, List.forall₂_same]
    intro track _
    refine ⟨drawTrack_eq D rgb track, ?_, ?_, ?_⟩
    · by_cases hc : D.cnt_detected_ track < 3
      · simp only [hc, if_true, ne_eq, not_true_eq_false, false_iff]; omega
      · simp only [hc, if_false, renderedTrack, boxAndLabel, ne_eq, List.cons_append,
          not_false_eq_true, true_iff, reduceCtorEq]
        omega
    · intro hc; simp only [hc, if_true]
    · intro hc
      have hn : ¬ D.cnt_detected_ track < 3 := by omega
      simp only [hn, if_false, renderedTrack]

/-- C1, at the demo processor holding one track seen twice: the third detection makes the
track visible. -/
theorem C1_track_rendered_iff_detected_three_times_witness :
    ∃ out blocks,
      Process Demo.deps false Demo.g2 [] Demo.out0 = some out ∧
      drawCalls out.events = blocks.flatten ∧
      List.Forall₂
        (fun track block =>
          drawTrack Demo.deps false track = some block ∧
          (block ≠ [] ↔ 3 ≤ Demo.deps.cnt_detected_ track) ∧
          (Demo.deps.cnt_detected_ track < 3 → block = []) ∧
          (3 ≤ Demo.deps.cnt_detected_ track →
            block = boxAndLabel false (Demo.deps.GetLatestBoundingBox track)
                      ++ trailSegments false (Demo.deps.GetTrackHistory track)))
        (Demo.deps.GetTrackList (Demo.deps.Update Demo.g2.s_tracker [Demo.detection 2]))
        blocks := by
  obtain ⟨out, blocks, h1, h2, h3, _⟩ :=
    C1_track_rendered_iff_detected_three_times Demo.deps false Demo.g2 [] Demo.out0 (2 : Nat)
      (3 : Nat) (Result.mk [Demo.detection 2] 1 2 3) rfl rfl
  exact ⟨out, blocks, h1, h2, h3⟩

/-- C2: `ImageProcessor::Process` always returns, and
* if the processor holds an engine and the engine's `Process` returns `kRetOk`, its events are
  the engine call, then one `Update` call with the engine's `bbox_list` (whatever its length),
  then the read of the track list, then drawing calls only; `Update` is called exactly once
  and the tracker after the call is the tracker before it updated with that list;
* if the processor holds no engine or the engine's `Process` does not return `kRetOk`, there is
  no `Update` call and no read of the track list, the tracker is unchanged, there is no drawing
  call and the frame is unchanged. -/
theorem C2_update_once_with_engine_detections (D : Deps F) (rgb : Bool) (g : Globals D)
    (mat : D.Mat) (output_param : OutputParam F) :
    ∃ out, Process D rgb g mat output_param = some out ∧
      (∀ e, g.s_engine = some e → (D.engine_Process e mat).1 = D.kRetOk →
        (∃ ops : List DrawOp, out.events
            = [Event.engine_Process,
               Event.tracker_Update (D.engine_Process e mat).2.1.bbox_list,
               Event.tracker_GetTrackList] ++ ops.map Event.cv) ∧
        updateCalls out.events = [(D.engine_Process e mat).2.1.bbox_list] ∧
        out.globals.s_tracker
          = D.Update g.s_tracker (D.engine_Process e mat).2.1.bbox_list) ∧
      ((g.s_engine = none ∨
          ∃ e, g.s_engine = some e ∧ (D.engine_Process e mat).1 ≠ D.kRetOk) →
        updateCalls out.events = [] ∧ Event.tracker_GetTrackList ∉ out.events ∧
        out.globals.s_tracker = g.s_tracker ∧ drawCalls out.events = [] ∧ out.mat = mat) := by
  cases hg : g.s_engine with
  | none =>
    refine ⟨_, Process_not_held D rgb g mat output_param hg, ?_, ?_⟩
    · intro e he; cases he
    · intro _
      exact ⟨rfl, by simp [notInitialized], rfl, rfl, rfl⟩
  | some e =>
    by_cases hok : (D.engine_Process e mat).1 = D.kRetOk
    · refine ⟨_, Process_engine_ok D rgb g mat output_param e hg hok, ?_, ?_⟩
      · intro e1 he1 _
        cases he1
        exact ⟨⟨_, rfl⟩, updateCalls_ok_events _ _, rfl⟩
      · rintro (h | ⟨e1, he1, hfail⟩)
        · cases h
        · cases he1; exact absurd hok hfail
    · refine ⟨_, Process_engine_failed D rgb g mat output_param e hg hok, ?_, ?_⟩
      · intro e1 he1 hok1
        cases he1; exact absurd hok1 hok
      · intro _
        exact ⟨rfl, by simp, rfl, rfl, rfl⟩

/-- C3: for a track with `cnt_detected_ >= 3` whose history has `n` entries, the loop body of
`Process` returns (no index outside the history is read); after the box and the label it
draws the segments `segs` of the inner loop, `n - 1` of them (none for `n ≤ 1`); for each `i`
with `1 ≤ i < n` the segment number `i` (at position `i - 1`) joins `anchor h[i]` to
`anchor h[i - 1]`; and `anchor e` is `(x + w / 2, y + h)` over the integers, with the division
truncating, whenever these sums fit `int32_t`. -/
theorem C3_trail_segments (D : Deps F) (rgb : Bool) (track : D.Track)
    (hshown : 3 ≤ D.cnt_detected_ track) :
    ∃ segs,
      drawTrail rgb (D.GetTrackHistory track) = some segs ∧
      drawTrack D rgb track = some (boxAndLabel rgb (D.GetLatestBoundingBox track) ++ segs) ∧
      segs.length = (D.GetTrackHistory track).length - 1 ∧
      (∀ (i : Nat) (_ : 1 ≤ i) (hi : i < (D.GetTrackHistory track).length),
        segs[i - 1]?
          = some (DrawOp.line (anchor ((D.GetTrackHistory track)[i]))
                    (anchor ((D.GetTrackHistory track)[i - 1]))
                    (CreateCvColor rgb 255 0 0))) ∧
      (∀ entry ∈ D.GetTrackHistory track, AnchorFits entry →
        anchor entry
          = Point.mk (entry.bbox.x + Int.tdiv entry.bbox.w 2) (entry.bbox.y + entry.bbox.h)) := by
  refine ⟨trailSegments rgb (D.GetTrackHistory track), drawTrail_eq _ _, ?_,
    trailSegments_length _ _, ?_, ?_⟩
  · have hn : ¬ D.cnt_detected_ track < 3 := by omega
    rw [drawTrack_eq]
    simp only [hn, if_false, renderedTrack]
  · intro i h1 hi
    exact trailSegments_getElem? rgb _ i h1 hi
  · intro entry _ hfit
    exact anchor_eq_anchorExact entry hfit

/-- C3, at a demo track seen three times: two segments, the first from the anchor of the
second entry to the anchor of the first one. -/
theorem C3_trail_segments_witness :
    ∃ segs,
      drawTrail false (Demo.deps.GetTrackHistory Demo.t3) = some segs ∧
      drawTrack Demo.deps false Demo.t3
        = some (boxAndLabel false (Demo.deps.GetLatestBoundingBox Demo.t3) ++ segs) ∧
      segs.length = 3 - 1 ∧
      segs[0]? = some (DrawOp.line (Point.mk 29 70) (Point.mk 25 70) (Scalar.mk 255 0 0)) := by
  obtain ⟨segs, h1, h2, h3, h4, _⟩ := C3_trail_segments Demo.deps false Demo.t3 (by decide)
  exact ⟨segs, h1, h2, h3, h4 1 (le_refl 1) (by decide)⟩

/-- C4: `ImageProcessor::Process` always returns, whatever the tracker and the detections
are; it returns 0 if and only if the processor holds an engine and the engine's `Process`
returns `kRetOk`, and it returns -1 in every other case. -/
theorem C4_return_value (D : Deps F) (rgb : Bool) (g : Globals D) (mat : D.Mat)
    (output_param : OutputParam F) :
    ∃ out, Process D rgb g mat output_param = some out ∧
      (out.ret = 0 ↔ ∃ e, g.s_engine = some e ∧ (D.engine_Process e mat).1 = D.kRetOk) ∧
      (out.ret ≠ 0 → out.ret = -1) := by
  cases hg : g.s_engine with
  | none =>
    refine ⟨_, Process_not_held D rgb g mat output_param hg, ?_, fun _ => rfl⟩
    constructor
    · intro h; exact absurd h neg_one_ne_zero_int
    · rintro ⟨e, he, _⟩; cases he
  | some e =>
    by_cases hok : (D.engine_Process e mat).1 = D.kRetOk
    · refine ⟨_, Process_engine_ok D rgb g mat output_param e hg hok, ?_, ?_⟩
      · exact ⟨fun _ => ⟨e, rfl, hok⟩, fun _ => rfl⟩
      · intro h; exact absurd rfl h
    · refine ⟨_, Process_engine_failed D rgb g mat output_param e hg hok, ?_, fun _ => rfl⟩
      constructor
      · intro h; exact absurd h neg_one_ne_zero_int
      · rintro ⟨e1, he1, hok1⟩
        cases he1; exact absurd hok1 hok

/-- C5: the processor holds at most one engine (`s_engine` is empty or holds one).
`Initialize` on a processor that holds an engine returns -1, leaves the globals as they are
and makes no engine call. `Initialize` on a processor that holds none creates one engine and
initialises it with `work_dir` and `num_threads`; if that returns `kRetOk`, `Initialize`
returns 0 and the processor holds the initialised engine; otherwise the new engine is
finalised and destroyed, `Initialize` returns -1, and the processor holds no engine. The
tracker is never touched. -/
theorem C5_initialize (D : Deps F) (g : Globals D) (input_param : InputParam) :
    (∀ e, g.s_engine = some e →
      (Initialize D g input_param).ret = -1 ∧
      (Initialize D g input_param).globals = g ∧
      engineCalls (Initialize D g input_param).events = []) ∧
    (g.s_engine = none →
      (D.engine_Initialize D.engine_new input_param.work_dir input_param.num_threads).1
        = D.kRetOk →
      (Initialize D g input_param).ret = 0 ∧
      (Initialize D g input_param).globals.s_engine
        = some (D.engine_Initialize D.engine_new input_param.work_dir
                  input_param.num_threads).2 ∧
      (Initialize D g input_param).globals.s_tracker = g.s_tracker ∧
      (Initialize D g input_param).events
        = [Event.engine_new,
           Event.engine_Initialize input_param.work_dir input_param.num_threads]) ∧
    (g.s_engine = none →
      (D.engine_Initialize D.engine_new input_param.work_dir input_param.num_threads).1
        ≠ D.kRetOk →
      (Initialize D g input_param).ret = -1 ∧
      (Initialize D g input_param).globals.s_engine = none ∧
      (Initialize D g input_param).globals.s_tracker = g.s_tracker ∧
      (Initialize D g input_param).events
        = [Event.engine_new,
           Event.engine_Initialize input_param.work_dir input_param.num_threads,
           Event.engine_Finalize, Event.engine_delete]) := by
  refine ⟨?_, ?_, ?_⟩
  · intro e he
    simp [Initialize, he, engineCalls]
  · intro hg hok
    simp [Initialize, hg, hok]
  · intro hg hfail
    simp [Initialize, hg, hfail]

/-- C6: when the processor holds an engine and the engine's `Process` returns `kRetOk`,
`ImageProcessor::Process` returns and the sequence of drawing calls it makes is
`renderedFrame` of the tracker's track list: the concatenation, in track-list order, over the
tracks with `cnt_detected_ >= 3`, of one rectangle at the latest box, its label twice at
`(x, y + 10)` with thickness 3 then 1, and the trail. The frame it leaves is the frame with
these calls applied in order. Any other successful run whose track list is the same makes the
same sequence of drawing calls. -/
theorem C6_drawing_is_function_of_track_list (D : Deps F) (rgb : Bool) (g : Globals D)
    (mat : D.Mat) (output_param : OutputParam F) (e e' : D.DetectionEngine) (result : Result F)
    (hheld : g.s_engine = some e)
    (hok : D.engine_Process e mat = (D.kRetOk, result, e')) :
    ∃ out, Process D rgb g mat output_param = some out ∧
      drawCalls out.events = renderedFrame D rgb (D.GetTrackList out.globals.s_tracker) ∧
      out.globals.s_tracker = D.Update g.s_tracker result.bbox_list ∧
      out.mat = (renderedFrame D rgb (D.GetTrackList out.globals.s_tracker)).foldl D.draw mat ∧
      ∀ (g2 : Globals D) (mat2 : D.Mat) (output_param2 : OutputParam F)
        (out2 : ProcessOutcome D),
        Process D rgb g2 mat2 output_param2 = some out2 → out2.ret = 0 →
        D.GetTrackList out2.globals.s_tracker = D.GetTrackList out.globals.s_tracker →
        drawCalls out2.events = drawCalls out.events := by
  refine ⟨_, Process_ok D rgb g mat output_param e e' result hheld hok,
    drawCalls_ok_events _ _, rfl, rfl, ?_⟩
  intro g2 mat2 output_param2 out2 hrun hret hsame
  simp only at hsame
  rw [drawCalls_ok_events]
  cases hg2 : g2.s_engine with
  | none =>
    rw [Process_not_held D rgb g2 mat2 output_param2 hg2] at hrun
    cases hrun
    exact absurd hret neg_one_ne_zero_int
  | some e2 =>
    by_cases hok2 : (D.engine_Process e2 mat2).1 = D.kRetOk
    · rw [Process_engine_ok D rgb g2 mat2 output_param2 e2 hg2 hok2] at hrun
      cases hrun
      simp only at hsame
      rw [drawCalls_ok_events, hsame]
    · rw [Process_engine_failed D rgb g2 mat2 output_param2 e2 hg2 hok2] at hrun
      cases hrun
      exact absurd hret neg_one_ne_zero_int

/-- C6, at the demo processor holding one track seen twice. -/
theorem C6_drawing_is_function_of_track_list_witness :
    ∃ out, Process Demo.deps false Demo.g2 [] Demo.out0 = some out ∧
      drawCalls out.events
        = renderedFrame Demo.deps false (Demo.deps.GetTrackList out.globals.s_tracker) ∧
      out.globals.s_tracker = [Demo.t3] ∧
      out.mat
        = [DrawOp.rectangle (Rect.mk 18 20 31 50) (Scalar.mk 255 255 0) 3,
           DrawOp.putText "person" (Point.mk 18 30) FontFace.FONT_HERSHEY_PLAIN 1
             (Scalar.mk 0 0 0) 3,
           DrawOp.putText "person" (Point.mk 18 30) FontFace.FONT_HERSHEY_PLAIN 1
             (Scalar.mk 0 255 0) 1,
           DrawOp.line (Point.mk 29 70) (Point.mk 25 70) (Scalar.mk 255 0 0),
           DrawOp.line (Point.mk 33 70) (Point.mk 29 70) (Scalar.mk 255 0 0)] := by
  obtain ⟨out, h1, h2, h3, h4, _⟩ :=
    C6_drawing_is_function_of_track_list Demo.deps false Demo.g2 [] Demo.out0 (2 : Nat)
      (3 : Nat) (Result.mk [Demo.detection 2] 1 2 3) rfl rfl
  refine ⟨out, h1, h2, h3, ?_⟩
  rw [h4, h3]
  rfl

/-- C8: after an `Initialize` that returned 0, every sequence of `Initialize`, `Finalize`,
`Command` and `Process` calls runs to its end with the processor holding an engine after every
call (so also after every `Finalize`, whatever the engine's `Finalize` returns, and at the end
of the sequence); every `Initialize` in the sequence returns -1, and no call prints
"Not initialized". -/
theorem C8_stays_initialized (D : Deps F) (rgb : Bool) (g : Globals D)
    (input_param : InputParam) (hinit : (Initialize D g input_param).ret = 0)
    (calls : List (Call D)) :
    ∃ steps, run D rgb (Initialize D g input_param).globals calls = some steps ∧
      steps.map Step.call = calls ∧
      (finalGlobals (Initialize D g input_param).globals steps).s_engine.isSome = true ∧
      ∀ s ∈ steps, s.globals.s_engine.isSome = true ∧
        (∀ ip, s.call = Call.Initialize ip → s.ret = -1) ∧
        notInitialized ∉ s.events := by
  apply run_held
  revert hinit
  unfold Initialize
  cases g.s_engine with
  | some e => intro h; exact absurd h neg_one_ne_zero_int
  | none =>
    simp only
    split
    · intro h; exact absurd h neg_one_ne_zero_int
    · intro _; rfl

/-- C8, at the demo processor: after a successful `Initialize`, a sequence with two `Finalize`
calls, a second `Initialize`, a `Command` and a `Process`. -/
theorem C8_stays_initialized_witness :
    ∃ steps, run Demo.deps false (Initialize Demo.deps Demo.g0 Demo.in0).globals
        [Call.Finalize, Call.Initialize Demo.in0, Call.Command 0, Call.Finalize,
         Call.Process [] Demo.out0] = some steps ∧
      steps.map Step.ret = [0, -1, -1, 0, 0] ∧
      ∀ s ∈ steps, s.globals.s_engine.isSome = true := by
  obtain ⟨steps, h1, _, _, h4⟩ :=
    C8_stays_initialized Demo.deps false Demo.g0 Demo.in0 (by decide)
      [Call.Finalize, Call.Initialize Demo.in0, Call.Command 0, Call.Finalize,
       Call.Process [] Demo.out0]
  refine ⟨steps, h1, ?_, fun s hs => (h4 s hs).1⟩
  have h := h1
  simp only [run, step, Initialize, Finalize, Command, Process, Demo.g0, Demo.deps, Demo.in0]
    at h
  cases h
  rfl

/-- C9: `ImageProcessor::Process` always returns 0 or -1. When it returns 0 the processor
held an engine `e`, and `output_param` after the call is `output_param` before the call with
`time_pre_process`, `time_inference` and `time_post_process` replaced by those of the result
of the engine; in particular `object_num` and `object_list` are the ones before the call.
When it returns -1, `output_param` after the call is `output_param` before the call. -/
theorem C9_output_param (D : Deps F) (rgb : Bool) (g : Globals D) (mat : D.Mat)
    (output_param : OutputParam F) :
    ∃ out, Process D rgb g mat output_param = some out ∧
      (out.ret = 0 ∨ out.ret = -1) ∧
      (out.ret = 0 → ∃ e, g.s_engine = some e ∧
        out.output_param
          = { object_num := output_param.object_num
              object_list := output_param.object_list
              time_pre_process := (D.engine_Process e mat).2.1.time_pre_process
              time_inference := (D.engine_Process e mat).2.1.time_inference
              time_post_process := (D.engine_Process e mat).2.1.time_post_process }) ∧
      (out.ret = -1 → out.output_param = output_param) := by
  cases hg : g.s_engine with
  | none =>
    refine ⟨_, Process_not_held D rgb g mat output_param hg, Or.inr rfl, ?_, fun _ => rfl⟩
    intro h; exact absurd h neg_one_ne_zero_int
  | some e =>
    by_cases hok : (D.engine_Process e mat).1 = D.kRetOk
    · refine ⟨_, Process_engine_ok D rgb g mat output_param e hg hok, Or.inl rfl, ?_, ?_⟩
      · intro _; exact ⟨e, rfl, rfl⟩
      · intro h; exact absurd h zero_ne_neg_one_int
    · refine ⟨_, Process_engine_failed D rgb g mat output_param e hg hok, Or.inr rfl, ?_,
        fun _ => rfl⟩
      intro h; exact absurd h neg_one_ne_zero_int

end ImageProcessor

namespace ClassificationEngine

variable {F : Type}

/-! ### `std::max_element` -/

theorem max_element_from_spec [LinearOrder F] :
    ∀ (rest pre : List F) (largest : Nat) (largestVal : F) (i : Nat),
      pre.length = i → pre[largest]? = some largestVal →
      (∀ (j : Nat) (x : F), pre[j]? = some x → x ≤ largestVal) →
      (∀ (j : Nat) (x : F), j < largest → pre[j]? = some x → x < largestVal) →
      ∃ m, (pre ++ rest)[max_element_from rest largest largestVal i]? = some m ∧
        (∀ (j : Nat) (x : F), (pre ++ rest)[j]? = some x → x ≤ m) ∧
        (∀ (j : Nat) (x : F), j < max_element_from rest largest largestVal i →
          (pre ++ rest)[j]? = some x → x < m) := by
  intro rest
  induction rest with
  | nil =>
    intro pre largest largestVal i _ hl hmax hfirst
    refine ⟨largestVal, ?_, ?_, ?_⟩
    · simpa [max_element_from] using hl
    · simpa using hmax
    · simpa [max_element_from] using hfirst
  | cons x rest ih =>
    intro pre largest largestVal i hlen hl hmax hfirst
    have hlt : largest < pre.length := by
      by_contra hge
      rw [List.getElem?_eq_none (by omega)] at hl
      cases hl
    have hassoc : pre ++ x :: rest = (pre ++ [x]) ++ rest := by simp
    have hget : ∀ (j : Nat) (y : F), (pre ++ [x])[j]? = some y →
        (j < pre.length ∧ pre[j]? = some y) ∨ (j = pre.length ∧ y = x) := by
      intro j y hy
      by_cases hj : j < pre.length
      · left
        rw [List.getElem?_append_left hj] at hy
        exact ⟨hj, hy⟩
      · right
        have hj2 : pre.length ≤ j := by omega
        rw [List.getElem?_append_right hj2] at hy
        by_cases hz : j - pre.length = 0
        · rw [hz] at hy
          simp only [List.getElem?_cons_zero, Option.some.injEq] at hy
          exact ⟨by omega, hy.symm⟩
        · obtain ⟨k, hk⟩ := Nat.exists_eq_succ_of_ne_zero hz
          rw [hk] at hy
          simp at hy
    unfold max_element_from
    rw [hassoc]
    by_cases hx : largestVal < x
    · simp only [hx, if_true]
      apply ih (pre ++ [x]) i x (i + 1)
      · simp [hlen]
      · rw [← hlen]; simp
      · intro j y hy
        rcases hget j y hy with ⟨_, hp⟩ | ⟨_, rfl⟩
        · exact le_of_lt (lt_of_le_of_lt (hmax j y hp) hx)
        · exact le_refl _
      · intro j y hj hy
        rcases hget j y hy with ⟨_, hp⟩ | ⟨hjl, _⟩
        · exact lt_of_le_of_lt (hmax j y hp) hx
        · omega
    · simp only [hx, if_false]
      apply ih (pre ++ [x]) largest largestVal (i + 1)
      · simp [hlen]
      · rw [List.getElem?_append_left hlt]; exact hl
      · intro j y hy
        rcases hget j y hy with ⟨_, hp⟩ | ⟨_, rfl⟩
        · exact hmax j y hp
        · exact not_lt.mp hx
      · intro j y hj hy
        rcases hget j y hy with ⟨_, hp⟩ | ⟨hjl, _⟩
        · exact hfirst j y hj hp
        · omega

/-- On a non-empty vector `std::max_element` points at the first of the largest elements. -/
theorem max_element_spec [LinearOrder F] (v : List F) (hne : v ≠ []) :
    ∃ m, v[max_element v]? = some m ∧
      (∀ (j : Nat) (x : F), v[j]? = some x → x ≤ m) ∧
      (∀ (j : Nat) (x : F), j < max_element v → v[j]? = some x → x < m) := by
  cases v with
  | nil => exact absurd rfl hne
  | cons a rest =>
    have h := max_element_from_spec rest [a] 0 a 1 rfl rfl
      (by
        intro j x hx
        cases j with
        | zero => simp at hx; exact le_of_eq hx.symm
        | succ j => simp at hx)
      (by intro j x hj; omega)
    simpa [max_element] using h

/-! ### The copy loop -/

theorem copyScoresFrom_spec (valFloat : Nat → F) :
    ∀ (fuel i : Nat) (v : List F), v.length - i < fuel →
      ∃ out, copyScoresFrom valFloat fuel i v = some out ∧ out.length = v.length ∧
        (∀ j, j < i → out[j]? = v[j]?) ∧
        (∀ j, i ≤ j → j < v.length → out[j]? = some (valFloat j)) := by
  intro fuel
  induction fuel with
  | zero => intro i v h; omega
  | succ fuel ih =>
    intro i v h
    unfold copyScoresFrom
    by_cases hi : i < v.length
    · simp only [hi, if_true]
      obtain ⟨out, hout, hlen, hlow, hhigh⟩ :=
        ih (i + 1) (v.set i (valFloat i)) (by rw [List.length_set]; omega)
      rw [List.length_set] at hlen hhigh
      refine ⟨out, hout, hlen, ?_, ?_⟩
      · intro j hj
        rw [hlow j (by omega), List.getElem?_set_ne (by omega)]
      · intro j hij hj
        by_cases hji : j = i
        · subst hji
          rw [hlow j (by omega), List.getElem?_set_self hj]
        · exact hhigh j (by omega) hj
    · simp only [hi, if_false]
      exact ⟨v, rfl, rfl, fun _ _ => rfl, fun j hij hj => by omega⟩

theorem retrieveScores_eq (D : Deps F) (outputs : List (OutputTensorInfo F))
    (out0 : OutputTensorInfo F) (h0 : outputs[0]? = some out0)
    (hsize : 0 ≤ mul32 (mul32 out0.tensor_dims.width out0.tensor_dims.height)
      out0.tensor_dims.channel) :
    retrieveScores D outputs
      = some ((List.range (mul32 (mul32 out0.tensor_dims.width out0.tensor_dims.height)
          out0.tensor_dims.channel).toNat).map out0.data_as_float) := by
  unfold retrieveScores
  simp only [h0, Option.bind_eq_bind, Option.some_bind, not_lt.mpr hsize, if_false]
  obtain ⟨out, hout, hlen, _, hhigh⟩ :=
    copyScoresFrom_spec out0.data_as_float
      ((mul32 (mul32 out0.tensor_dims.width out0.tensor_dims.height)
          out0.tensor_dims.channel).toNat + 1) 0
      (List.replicate (mul32 (mul32 out0.tensor_dims.width out0.tensor_dims.height)
          out0.tensor_dims.channel).toNat D.zero)
      (by rw [List.length_replicate]; omega)
  rw [hout]
  congr 1
  rw [List.length_replicate] at hlen hhigh
  apply List.ext_getElem?
  intro j
  by_cases hj : j < (mul32 (mul32 out0.tensor_dims.width out0.tensor_dims.height)
      out0.tensor_dims.channel).toNat
  · rw [hhigh j (Nat.zero_le j) hj, List.getElem?_map, List.getElem?_range hj]
    rfl
  · rw [List.getElem?_eq_none (by omega), List.getElem?_eq_none (by simp; omega)]

theorem wrap32_natCast_of_lt (n : Nat) (h : (n : Int) < 2147483648) : wrap32 (n : Int) = n := by
  unfold wrap32
  omega

theorem wrap32_lt (n : Int) : wrap32 n < 2147483648 := by
  unfold wrap32
  omega

theorem tensorScores_length (out0 : OutputTensorInfo F) :
    ((tensorScores out0).length : Int) < 2147483648 := by
  unfold tensorScores
  rw [List.length_map, List.length_range]
  unfold mul32
  have h := wrap32_lt (wrap32 (out0.tensor_dims.width * out0.tensor_dims.height)
    * out0.tensor_dims.channel)
  omega

theorem retrieveScores_eq_tensorScores (D : Deps F) (outputs : List (OutputTensorInfo F))
    (out0 : OutputTensorInfo F) (h0 : outputs[0]? = some out0)
    (hne : tensorScores out0 ≠ []) :
    retrieveScores D outputs = some (tensorScores out0) := by
  apply retrieveScores_eq D outputs out0 h0
  by_contra hneg
  apply hne
  unfold tensorScores
  have hz : (mul32 (mul32 out0.tensor_dims.width out0.tensor_dims.height)
      out0.tensor_dims.channel).toNat = 0 := by omega
  rw [hz]
  rfl

/-! ### The successful path through `Process` -/

theorem Process_succeeds [LinearOrder F] (D : Deps F) (rgb : Bool) (self : Members D)
    (now : Clock D.TimePoint) (original_mat : D.Mat) (result : Result F)
    (helper helper1 helper2 : D.InferenceHelper) (inputs : List (InputTensorInfo D.Mat))
    (outputs : List (OutputTensorInfo F)) (out0 : OutputTensorInfo F) (m : F) (name : String)
    (hhelper : self.m_inferenceHelper = some helper)
    (hinput : prepareInput D rgb self.m_inputTensorList original_mat = some inputs)
    (hpre : D.helper_PreProcess helper inputs = (D.helper_kRetOk, helper1))
    (hinf : D.helper_Process helper1 self.m_outputTensorList
      = (D.helper_kRetOk, helper2, outputs))
    (hout : outputs[0]? = some out0)
    (hne : tensorScores out0 ≠ [])
    (hm : (tensorScores out0)[max_element (tensorScores out0)]? = some m)
    (hname : self.m_labelList[max_element (tensorScores out0)]? = some name) :
    Process D rgb self now original_mat result
      = some (D.kRetOk,
          { self with
            m_inferenceHelper := some helper2
            m_inputTensorList := inputs
            m_outputTensorList := outputs },
          { class_id := (max_element (tensorScores out0) : Nat)
            class_name := name
            score := m
            time_pre_process := D.duration_ms now.tPreProcess0 now.tPreProcess1
            time_inference := D.duration_ms now.tInference0 now.tInference1
            time_post_process := D.duration_ms now.tPostProcess0 now.tPostProcess1 }) := by
  have hidx : max_element (tensorScores out0) < (tensorScores out0).length := by
    by_contra hge
    rw [List.getElem?_eq_none (by omega)] at hm
    cases hm
  have hlen := tensorScores_length out0
  have hwrap : wrap32 ((max_element (tensorScores out0) : Nat) : Int)
      = (max_element (tensorScores out0) : Nat) :=
    wrap32_natCast_of_lt _ (by omega)
  unfold Process
  simp only [hhelper, hinput, hpre, hinf, Option.bind_eq_bind, Option.some_bind, ne_eq,
    not_true_eq_false, if_false, retrieveScores_eq_tensorScores D outputs out0 hout hne, hm,
    hwrap, Int.toNat_ofNat, hname]
  have hnn : ¬ ((max_element (tensorScores out0) : Nat) : Int) < 0 := by omega
  simp only [hnn, if_false, Option.some_bind]

/-! ### `ReadLabel` -/

theorem split_at_newline (content : List Char) :
    (content.dropWhile (fun c => c != '\n') = [] ∧
      content.takeWhile (fun c => c != '\n') = content ∧
      ∀ c ∈ content, (c == '\n') = false) ∨
    (∃ rest, content.dropWhile (fun c => c != '\n') = '\n' :: rest ∧
      content = content.takeWhile (fun c => c != '\n') ++ '\n' :: rest ∧
      ∀ c ∈ content.takeWhile (fun c => c != '\n'), (c == '\n') = false) := by
  induction content with
  | nil => left; simp
  | cons a rest ih =>
    by_cases ha : a = '\n'
    · right
      subst ha
      exact ⟨rest, by simp [List.dropWhile], by simp [List.takeWhile], by simp [List.takeWhile]⟩
    · have hne : (a != '\n') = true := by simpa using ha
      rcases ih with ⟨h1, h2, h3⟩ | ⟨r, h1, h2, h3⟩
      · left
        refine ⟨by simp [List.dropWhile, hne, h1], by simp [List.takeWhile, hne, h2], ?_⟩
        intro c hc
        rcases List.mem_cons.mp hc with rfl | hc
        · simpa using ha
        · exact h3 c hc
      · right
        refine ⟨r, by simp [List.dropWhile, hne, h1], ?_, ?_⟩
        · simp only [List.takeWhile, hne, List.cons_append]
          rw [← h2]
        · intro c hc
          simp only [List.takeWhile, hne] at hc
          rcases List.mem_cons.mp hc with rfl | hc
          · simpa using ha
          · exact h3 c hc

theorem fileLines_nil : fileLines [] = [] := by decide

theorem fileLines_cons (a : Char) (cs : List Char) :
    fileLines (a :: cs)
      = String.mk ((a :: cs).takeWhile (fun c => c != '\n'))
          :: fileLines (((a :: cs).dropWhile (fun c => c != '\n')).drop 1) := by
  rcases split_at_newline (a :: cs) with ⟨h1, h2, h3⟩ | ⟨rest, h1, h2, h3⟩
  · rw [h1, h2]
    have hs : (a :: cs).splitOn '\n' = [a :: cs] :=
      List.splitOnP_eq_single (fun c => c == '\n') (a :: cs)
        (fun x hx => by show ¬ (x == '\n') = true; rw [h3 x hx]; exact Bool.false_ne_true)
    simp [fileLines, hs, fileLines_nil]
  · rw [h1]
    have hs : (a :: cs).splitOn '\n'
        = (a :: cs).takeWhile (fun c => c != '\n') :: rest.splitOn '\n' := by
      conv_lhs => rw [h2]
      exact List.splitOnP_first (fun c => c == '\n') _
        (fun x hx => by show ¬ (x == '\n') = true; rw [h3 x hx]; exact Bool.false_ne_true) '\n' (by decide) rest
    have hnn : rest.splitOn '\n' ≠ [] := List.splitOnP_ne_nil _ _
    simp only [fileLines, hs, List.drop_succ_cons, List.drop_zero]
    obtain ⟨piece, pieces, hps⟩ := List.exists_cons_of_ne_nil hnn
    rw [hps, List.getLast?_cons_cons, List.dropLast_cons₂]
    split <;> simp

theorem getline_length (rest : List Char) (str : String) (rest' : List Char)
    (h : getline rest = some (str, rest')) : rest'.length < rest.length := by
  cases rest with
  | nil => cases h
  | cons a cs =>
    simp only [getline, Option.some.injEq, Prod.mk.injEq] at h
    rw [← h.2, List.length_drop]
    have := (List.dropWhile_sublist (l := a :: cs) (fun c => c != '\n')).length_le
    simp only [List.length_cons] at this ⊢
    omega

theorem readLines_eq :
    ∀ (fuel : Nat) (content : List Char) (labelList : List String), content.length < fuel →
      readLines fuel content labelList = some (labelList ++ fileLines content) := by
  intro fuel
  induction fuel with
  | zero => intro content _ h; omega
  | succ fuel ih =>
    intro content labelList h
    cases content with
    | nil => simp [readLines, getline, fileLines_nil]
    | cons a cs =>
      have hlen := getline_length (a :: cs) _ _ rfl
      simp only [readLines, getline]
      rw [ih _ _ (by omega), fileLines_cons]
      simp

/-! ### Properties of the classification engine -/

/-- C7, as amended: when the helper is held, pre-processing and inference succeed, the score
list of the output tensor is not empty, scores are totally ordered and the label list has an
entry at the index of the first largest score, `ClassificationEngine::Process` returns
`kRetOk`; the score list it retrieves is the tensor's; `class_id` is an index into the score
list, its score is greater than or equal to every score, and it is the smallest such index;
the returned score is the score at `class_id`, and `class_name` is the label-list entry at
`class_id`. -/
theorem C7_process_returns_first_argmax [LinearOrder F] (D : Deps F) (rgb : Bool)
    (self : Members D) (now : Clock D.TimePoint) (original_mat : D.Mat) (result : Result F)
    (helper helper1 helper2 : D.InferenceHelper) (inputs : List (InputTensorInfo D.Mat))
    (outputs : List (OutputTensorInfo F)) (out0 : OutputTensorInfo F)
    (hhelper : self.m_inferenceHelper = some helper)
    (hinput : prepareInput D rgb self.m_inputTensorList original_mat = some inputs)
    (hpre : D.helper_PreProcess helper inputs = (D.helper_kRetOk, helper1))
    (hinf : D.helper_Process helper1 self.m_outputTensorList
      = (D.helper_kRetOk, helper2, outputs))
    (hout : outputs[0]? = some out0)
    (hne : tensorScores out0 ≠ [])
    (hlabel : max_element (tensorScores out0) < self.m_labelList.length) :
    ∃ self1 res,
      Process D rgb self now original_mat result = some (D.kRetOk, self1, res) ∧
      retrieveScores D outputs = some (tensorScores out0) ∧
      0 ≤ res.class_id ∧ res.class_id.toNat < (tensorScores out0).length ∧
      (tensorScores out0)[res.class_id.toNat]? = some res.score ∧
      (∀ (j : Nat) (x : F), (tensorScores out0)[j]? = some x → x ≤ res.score) ∧
      (∀ (j : Nat) (x : F), (tensorScores out0)[j]? = some x →
        (∀ (k : Nat) (y : F), (tensorScores out0)[k]? = some y → y ≤ x) →
        res.class_id.toNat ≤ j) ∧
      self.m_labelList[res.class_id.toNat]? = some res.class_name := by
  obtain ⟨m, hm, hmax, hfirst⟩ := max_element_spec (tensorScores out0) hne
  have hidx : max_element (tensorScores out0) < (tensorScores out0).length := by
    by_contra hge
    rw [List.getElem?_eq_none (by omega)] at hm
    cases hm
  refine ⟨_, _, Process_succeeds D rgb self now original_mat result helper helper1 helper2 inputs
      outputs out0 m (self.m_labelList[max_element (tensorScores out0)]) hhelper hinput hpre
      hinf hout hne hm (List.getElem?_eq_getElem hlabel),
    retrieveScores_eq_tensorScores D outputs out0 hout hne, ?_, ?_, ?_, ?_, ?_, ?_⟩
  · exact Int.ofNat_nonneg _
  · simpa using hidx
  · simpa using hm
  · exact hmax
  · intro j x hx hall
    simp only [Int.toNat_ofNat]
    by_contra hlt
    have h1 := hfirst j x (by omega) hx
    have h2 := hall _ m hm
    exact absurd h1 (not_lt.mpr h2)
  · simp only [Int.toNat_ofNat]
    exact List.getElem?_eq_getElem hlabel

/-- C7, at the demo engine with three labels and the scores `10, 30, 30`: the class is 1,
the first of the two largest scores, and its name is `cat`. -/
theorem C7_process_returns_first_argmax_witness :
    ∃ self1 res,
      Process Demo.cdeps false Demo.engine3 Demo.clock0 (5 : Nat) Demo.result0
        = some (0, self1, res) ∧
      res.class_id = 1 ∧ res.score = 30 ∧ res.class_name = "cat" := by
  obtain ⟨self1, res, h1, _, _, _, _, _, _, _⟩ :=
    C7_process_returns_first_argmax Demo.cdeps false Demo.engine3 Demo.clock0 (5 : Nat)
      Demo.result0 () () ()
      [{ Demo.input0 with
         data := some (5 : Nat), data_type := 1
         image_info := ImageInfo.mk 280 280 3 0 0 280 280 false false }]
      [OutputTensorInfo.mk (TensorDims.mk 1 1 1 3) (fun i => [10, 30, 30].getD i 0)]
      (OutputTensorInfo.mk (TensorDims.mk 1 1 1 3) (fun i => [10, 30, 30].getD i 0))
      rfl rfl rfl rfl rfl (by decide) (by decide)
  refine ⟨self1, res, h1, ?_⟩
  have h2 : Process Demo.cdeps false Demo.engine3 Demo.clock0 (5 : Nat) Demo.result0
      = some (0, _, Result.mk 1 "cat" 30 2000 7000 1000) := rfl
  rw [h2] at h1
  simp only [Option.some.injEq, Prod.mk.injEq] at h1
  obtain ⟨_, _, h3⟩ := h1
  rw [← h3]
  exact ⟨rfl, rfl, rfl⟩

/-- C7 as stated fails on a label list that is shorter than the score list: the demo engine
with the single label `cat` retrieves the non-empty score list `10, 30, 30`, whose first
largest score is at index 1, where the label list has no entry; `Process` reads
`m_labelList[1]` outside the vector and returns no result. -/
theorem C7_counterexample_short_label_list :
    retrieveScores Demo.cdeps
        (Demo.cdeps.helper_Process () Demo.engine1.m_outputTensorList).2.2
      = some [10, 30, 30] ∧
    max_element ([10, 30, 30] : List Int) = 1 ∧
    Demo.engine1.m_labelList[1]? = none ∧
    Process Demo.cdeps false Demo.engine1 Demo.clock0 (5 : Nat) Demo.result0 = none :=
  ⟨rfl, rfl, rfl, rfl⟩

/-- C10: `ReadLabel` always returns. When the file can be opened it returns `kRetOk` and
`labelList` becomes the lines of the file in file order, preceded by the single entry
`background` when `with_background_` is set; what `labelList` held before is gone, and line
`k` of the file is at index `k + 1` with background and at index `k` without. When the file
cannot be opened it returns `kRetErr` and `labelList` is unchanged. -/
theorem C10_read_label (D : Deps F) (with_background_ : Bool) (filename : String)
    (labelList : List String) :
    (∀ content, D.ifstream filename = some content →
      ReadLabel D with_background_ filename labelList
        = some (D.kRetOk,
            (if with_background_ then ["background"] else []) ++ fileLines content) ∧
      ∀ (k : Nat) (line : String), (fileLines content)[k]? = some line →
        ((if with_background_ then ["background"] else []) ++ fileLines content)[
            if with_background_ then k + 1 else k]? = some line) ∧
    (D.ifstream filename = none →
      ReadLabel D with_background_ filename labelList = some (D.kRetErr, labelList)) := by
  constructor
  · intro content hc
    constructor
    · unfold ReadLabel
      simp only [hc, readLines_eq (content.length + 1) content _ (Nat.lt_succ_self _),
        Option.map_some', List.nil_append]
    · intro k line hk
      cases with_background_ with
      | false => simpa using hk
      | true => simpa using hk
  · intro hc
    unfold ReadLabel
    simp only [hc]

end ClassificationEngine

end PlayWithTflite
